import Mathlib

/-!
Shallow embedding of `src/datalink/winpcap.rs`, the WinPcap datalink backend
of libpnet, together with theorems settling the claims about it.

The native WinPcap driver is external to the repository; its entry points are
modelled as oracles: a `Bool`-valued success result per call for the
configuration, transmit and receive calls, and an abstract header-reading
function for the contents of the receive buffer.  Machine integers (`usize`,
`u32`) are modelled as `Nat`; none of the claims below concerns wrap-around.
Rust panics (from `unwrap` on an empty queue and from `chunks_mut` with chunk
size 0) are modelled as distinguished outcome constructors, since a panic is
an observable, non-returning outcome of the source functions.
-/

namespace WinpcapSpec

/-! ### Receive side: the decode loop of `DataLinkChannelIteratorImpl::next`
    (winpcap.rs lines 242-274) -/

/-- Modelled from the spec: `bpf::BPF_WORDALIGN` lives in the `bindings`
module, which is not among the provided sources.  The spec (section 6)
defines the record framing as `wordAlign(x) = ((x + (W - 1)) / W) * W`,
where `W` is the platform pointer width in bytes. -/
def BPF_WORDALIGN (W x : Nat) : Nat := ((x + (W - 1)) / W) * W

/-- Result of the decode loop at winpcap.rs:255-265.  `done` is normal
termination of the `while ptr < end` loop, carrying the queued records;
`fuelOut` is returned when the supplied fuel is exhausted while the loop
guard still holds, carrying the records queued so far.  A run of the source
loop is non-terminating exactly when the embedding returns `fuelOut` for
every amount of fuel. -/
inductive DecodeRes : Type
  | done : List (Nat × Nat) → DecodeRes
  | fuelOut : List (Nat × Nat) → DecodeRes
deriving DecidableEq

/-- The decode loop of `next` (winpcap.rs:253-265), cursor expressed relative
to the buffer base.  `hdr p` is the pair `(bh_hdrlen, bh_caplen)` of the
`bpf_hdr` record found at byte offset `p` from the base: it abstracts the
raw-pointer read `*(ptr as *const bpf_hdr)` at line 257 (the concrete byte
layout of `bpf_hdr` lives in the external `bindings` module).  `acc` is the
`packets` queue being `push_back`-ed to (line 261): the queued record is
`(start, bh_caplen)` with `start = ptr + bh_hdrlen - base` (line 258-260),
and the cursor then advances by `BPF_WORDALIGN (bh_hdrlen + bh_caplen)`
(lines 262-263). -/
def decodeAux (hdr : Nat → Nat × Nat) (W buflen : Nat) :
    Nat → Nat → List (Nat × Nat) → DecodeRes
  | 0, ptr, acc => if ptr < buflen then .fuelOut acc else .done acc
  | fuel + 1, ptr, acc =>
    if ptr < buflen then
      decodeAux hdr W buflen fuel
        (ptr + BPF_WORDALIGN W ((hdr ptr).1 + (hdr ptr).2))
        (acc ++ [(ptr + (hdr ptr).1, (hdr ptr).2)])
    else .done acc

/-- The decode loop run from the buffer base with fuel `buflen`.  Whenever
the source loop terminates, every iteration advanced the cursor by at least
one byte, so it performed at most `buflen` iterations and fuel `buflen`
suffices; hence `fuelOut` here coincides with non-termination of the source
loop. -/
def decodeRecords (hdr : Nat → Nat × Nat) (W buflen : Nat) : DecodeRes :=
  decodeAux hdr W buflen buflen 0 []

/-- Observable outcome of one call to `next` (winpcap.rs:243-273).
`ok s l` is `Ok(EthernetHeader::new(..))` over the slice starting at offset
`s` of length `l`; `err` is `Err(IoError::last_error())`; `panicked` is the
panic of `self.packets.pop_front().unwrap()` (line 267) on an empty queue;
`diverged` is non-termination of the decode loop. -/
inductive NextOutcome : Type
  | err : NextOutcome
  | ok : Nat → Nat → NextOutcome
  | panicked : NextOutcome
  | diverged : NextOutcome
deriving DecidableEq

/-- One call to `DataLinkChannelIteratorImpl::next` (winpcap.rs:243-273).
`recvOk` is the result of the blocking `PacketReceivePacket` call (line
246-248, zero is failure), `bytesReceived` the driver-reported
`ulBytesReceived` (line 251), `packets` the iterator's queue before the
call.  Returns the outcome and the queue after the call. -/
def next (recvOk : Bool) (hdr : Nat → Nat × Nat) (W bytesReceived : Nat)
    (packets : List (Nat × Nat)) : NextOutcome × List (Nat × Nat) :=
  if packets.isEmpty then
    if recvOk then
      match decodeRecords hdr W bytesReceived with
      | .fuelOut _ => (.diverged, packets)
      | .done recs =>
        match packets ++ recs with
        | [] => (.panicked, [])
        | (s, l) :: restq => (.ok s l, restq)
    else (.err, packets)
  else
    match packets with
    | [] => (.panicked, [])
    | (s, l) :: restq => (.ok s l, restq)

/-! ### Send side: `DataLinkSenderImpl::build_and_send`
    (winpcap.rs lines 169-209) -/

/-- The native packet descriptor (`winpcap::PACKET`), restricted to what the
sender touches: the mutable `Length` field (which at rest holds the backing
buffer's capacity, set by `PacketInitPacket`), and `rest`, standing for every
other descriptor field, which `build_and_send` never writes.  The backing
buffer's bytes are not part of the descriptor and are mutated only through
the caller's build callback. -/
structure Packet where
  Length : Nat
  rest : Nat
deriving DecidableEq

/-- Observable events of one `build_and_send` call, in program order.
`build i` is the invocation of the caller-supplied callback `func` on chunk
`i` (line 190-191); `transmit i l` is the `PacketSendPacket` driver call for
chunk `i` issued while the descriptor's `Length` field holds `l`
(line 198). -/
inductive Event : Type
  | build : Nat → Event
  | transmit : Nat → Nat → Event
deriving DecidableEq

/-- Result of `build_and_send`: `reject` is `None` (capacity check, line
176-177), `ok` is `Some(Ok(()))`, `err` is `Some(Err(..))` after a failed
transmit (line 203), `panicked` is the panic of `chunks_mut(0)` when
`packet_size = 0` (line 188). -/
inductive SendOutcome : Type
  | reject : SendOutcome
  | panicked : SendOutcome
  | ok : SendOutcome
  | err : SendOutcome
deriving DecidableEq

/-- The per-chunk loop of `build_and_send` (winpcap.rs:188-206).  `sendOk i`
is the oracle for the `PacketSendPacket` result on chunk `i` (zero is
failure).  Arguments: chunks still to process, index of the current chunk,
current descriptor.  Returns the event trace, the descriptor after the loop
and the outcome. -/
def sendLoop (sendOk : Nat → Bool) (packet_size : Nat) :
    Nat → Nat → Packet → List Event × Packet × SendOutcome
  | 0, _, pkt => ([], pkt, .ok)
  | n + 1, i, pkt =>
    -- let eh = MutableEthernetHeader::new(chunk); func(eh);   (lines 190-191)
    -- let old_len = (*self.packet.packet).Length;             (line 195)
    let old_len := pkt.Length
    -- (*self.packet.packet).Length = packet_size as u32;      (line 196)
    let during : Packet := { pkt with Length := packet_size }
    -- let ret = PacketSendPacket(..);                         (line 198)
    let ret := sendOk i
    -- (*self.packet.packet).Length = old_len;  -- restored before ret is
    -- inspected, on the success and the failure path alike    (line 200)
    let restored : Packet := { during with Length := old_len }
    if ret then
      let r := sendLoop sendOk packet_size n (i + 1) restored
      (Event.build i :: Event.transmit i during.Length :: r.1, r.2)
    else
      ([Event.build i, Event.transmit i during.Length], restored, .err)

/-- Embedding of `DataLinkSenderImpl::build_and_send` (winpcap.rs:170-209).  The `len >=
Length` rejection (line 176) is `pkt.Length ≤ len`.  Past the check,
`min(Length, len) = len`, so the mutable view covers exactly
`num_packets * packet_size` bytes and `chunks_mut(packet_size)` yields
exactly `num_packets` chunks — except that `chunks_mut` panics when
`packet_size = 0`, which the embedding records as the `panicked` outcome. -/
def build_and_send (sendOk : Nat → Bool) (pkt : Packet)
    (num_packets packet_size : Nat) : List Event × Packet × SendOutcome :=
  let len := num_packets * packet_size
  if pkt.Length ≤ len then
    ([], pkt, .reject)
  else if packet_size = 0 then
    ([], pkt, .panicked)
  else
    sendLoop sendOk packet_size num_packets 0 pkt

/-! ### Channel factory: `datalink_channel` (winpcap.rs lines 96-154) -/

/-- Driver calls observable during `datalink_channel`, in program order. -/
inductive DCall : Type
  | openAdapter : DCall
  | setHwFilter : DCall
  | setBuff : DCall
  | setMinToCopy : DCall
  | allocPacket : DCall
  | initPacket : DCall
  | closeAdapter : DCall
  | freePacket : DCall
deriving DecidableEq

/-- Oracle for the driver calls issued by `datalink_channel`: whether
`PacketOpenAdapter` returns a non-null handle, whether each configuration
call returns nonzero, and whether each of the two `PacketAllocatePacket`
calls (read side first, line 138, then write side, line 140) returns a
non-null descriptor. -/
structure Driver where
  openOk : Bool
  hwFilterOk : Bool
  setBuffOk : Bool
  minToCopyOk : Bool
  allocReadOk : Bool
  allocWriteOk : Bool
deriving DecidableEq

/-- Result of `datalink_channel`: `ok` is `Ok((sender, receiver))`, `err` is
`Err(IoError::last_error())`. -/
inductive ChanResult : Type
  | ok : ChanResult
  | err : ChanResult
deriving DecidableEq

/-- Destructor `impl Drop for WinPcapAdapter` (winpcap.rs:54-62): calls
`PacketCloseAdapter` unless the handle is null. -/
def adapterDrop (isNull : Bool) : List DCall :=
  if isNull then [] else [.closeAdapter]

/-- Destructor `impl Drop for WinPcapPacket` (winpcap.rs:86-94): calls
`PacketFreePacket` unless the descriptor is null. -/
def packetDrop (isNull : Bool) : List DCall :=
  if isNull then [] else [.freePacket]

/-- Embedding of `WinPcapPacket::with_buf` (winpcap.rs:69-83): `PacketAllocatePacket`,
then — if the descriptor is non-null — `PacketInitPacket`; a null descriptor
makes `try_get_ptr!` return `Err` before any wrapper is constructed. -/
def with_buf (allocOk : Bool) : List DCall × Bool :=
  if allocOk then ([.allocPacket, .initPacket], true)
  else ([.allocPacket], false)

/-- Embedding of `datalink_channel` (winpcap.rs:96-154), as the trace of driver calls it
issues plus its result.  On each early `Err` return, Rust drops the live
locals in reverse construction order: the `WinPcapAdapter` wrapper exists
from line 108 on (so every failure after a successful open closes the
adapter), and the read-side `WinPcapPacket` exists before the write-side
allocation (line 138 before 140).  On success nothing is dropped here: the
returned sender/receiver own the adapter and descriptors. -/
def datalink_channel (d : Driver) : List DCall × ChanResult :=
  let t := [DCall.openAdapter]
  if d.openOk then
    -- adapter : WinPcapAdapter, non-null from here on (line 108-113)
    let adapterNull := false
    let t := t ++ [DCall.setHwFilter]
    if d.hwFilterOk then
      let t := t ++ [DCall.setBuff]
      if d.setBuffOk then
        let t := t ++ [DCall.setMinToCopy]
        if d.minToCopyOk then
          let rp := with_buf d.allocReadOk
          let t := t ++ rp.1
          if rp.2 then
            let wp := with_buf d.allocWriteOk
            let t := t ++ wp.1
            if wp.2 then
              (t, .ok)
            else
              (t ++ packetDrop false ++ adapterDrop adapterNull, .err)
          else (t ++ adapterDrop adapterNull, .err)
        else (t ++ adapterDrop adapterNull, .err)
      else (t ++ adapterDrop adapterNull, .err)
    else (t ++ adapterDrop adapterNull, .err)
  else (t, .err)

/-- Number of occurrences of the driver call `c` in a trace. -/
def countCalls (c : DCall) (l : List DCall) : Nat :=
  l.countP (fun x => decide (x = c))

/-! ### Helper lemmas about the send loop -/

/-- The event trace of a run in which every transmit succeeds: per chunk,
the build callback then the transmit with the descriptor length set to
`ps`, for chunks `i, i+1, ...`. -/
def pairTrace (ps : Nat) : Nat → Nat → List Event
  | 0, _ => []
  | n + 1, i => .build i :: .transmit i ps :: pairTrace ps n (i + 1)

/-- Extracts the chunk index of a build event. -/
def buildIdx : Event → Option Nat
  | .build i => some i
  | .transmit _ _ => none

theorem sendLoop_succ_true {sendOk : Nat → Bool} {ps i : Nat}
    (n : Nat) (pkt : Packet) (h : sendOk i = true) :
    sendLoop sendOk ps (n + 1) i pkt =
      (Event.build i :: Event.transmit i ps :: (sendLoop sendOk ps n (i + 1) pkt).1,
       (sendLoop sendOk ps n (i + 1) pkt).2) := by
  simp [sendLoop, h]

theorem sendLoop_succ_false {sendOk : Nat → Bool} {ps i : Nat}
    (n : Nat) (pkt : Packet) (h : sendOk i = false) :
    sendLoop sendOk ps (n + 1) i pkt =
      ([Event.build i, Event.transmit i ps], pkt, .err) := by
  simp [sendLoop, h]

/-- The loop hands the descriptor back exactly as it received it: the
`Length` field is restored on every iteration and no other field is ever
written. -/
theorem sendLoop_packet (sendOk : Nat → Bool) (ps : Nat) :
    ∀ n i pkt, (sendLoop sendOk ps n i pkt).2.1 = pkt := by
  intro n
  induction n with
  | zero => intro i pkt; rfl
  | succ n ih =>
    intro i pkt
    cases hr : sendOk i
    · rw [sendLoop_succ_false n pkt hr]
    · rw [sendLoop_succ_true n pkt hr]
      exact ih (i + 1) pkt

/-- The loop ends in `ok` or `err`; it never yields the rejection or panic
outcomes of the enclosing function. -/
theorem sendLoop_outcome (sendOk : Nat → Bool) (ps : Nat) :
    ∀ n i pkt, (sendLoop sendOk ps n i pkt).2.2 = SendOutcome.ok ∨
      (sendLoop sendOk ps n i pkt).2.2 = SendOutcome.err := by
  intro n
  induction n with
  | zero => intro i pkt; left; rfl
  | succ n ih =>
    intro i pkt
    cases hr : sendOk i
    · right; rw [sendLoop_succ_false n pkt hr]
    · rw [sendLoop_succ_true n pkt hr]
      exact ih (i + 1) pkt

/-- Every transmit event in the loop's trace carries length `ps`: the
descriptor's `Length` field holds `packet_size` for the duration of each
driver call. -/
theorem sendLoop_transmit_len (sendOk : Nat → Bool) (ps : Nat) :
    ∀ n i pkt j l, Event.transmit j l ∈ (sendLoop sendOk ps n i pkt).1 → l = ps := by
  intro n
  induction n with
  | zero => intro i pkt j l h; simp [sendLoop] at h
  | succ n ih =>
    intro i pkt j l h
    cases hr : sendOk i
    · rw [sendLoop_succ_false n pkt hr] at h
      simp [List.mem_cons] at h
      exact h.2
    · rw [sendLoop_succ_true n pkt hr] at h
      simp [List.mem_cons] at h
      rcases h with ⟨_, h⟩ | h
      · exact h
      · exact ih (i + 1) pkt j l h

/-- A run in which the transmit for every processed chunk succeeds produces
the full pair trace and ends in `ok`. -/
theorem sendLoop_trace_ok (sendOk : Nat → Bool) (ps : Nat) :
    ∀ n i pkt, (∀ j, j < n → sendOk (i + j) = true) →
      sendLoop sendOk ps n i pkt = (pairTrace ps n i, pkt, .ok) := by
  intro n
  induction n with
  | zero => intro i pkt _; rfl
  | succ n ih =>
    intro i pkt h
    have h0 : sendOk i = true := by simpa using h 0 (by omega)
    have hrest : ∀ j, j < n → sendOk (i + 1 + j) = true := by
      intro j hj
      have := h (j + 1) (by omega)
      rwa [show i + (j + 1) = i + 1 + j by omega] at this
    rw [sendLoop_succ_true n pkt h0, ih (i + 1) pkt hrest]
    rfl

/-- A run whose first transmit failure is at chunk `i + k` (all earlier
chunks succeed) stops right after that chunk with the `err` outcome, having
emitted exactly the events for chunks `i, ..., i + k`. -/
theorem sendLoop_trace_fail (sendOk : Nat → Bool) (ps : Nat) :
    ∀ k n i pkt, k < n → sendOk (i + k) = false →
      (∀ j, j < k → sendOk (i + j) = true) →
      sendLoop sendOk ps n i pkt = (pairTrace ps (k + 1) i, pkt, .err) := by
  intro k
  induction k with
  | zero =>
    intro n i pkt hn hf _
    cases n with
    | zero => omega
    | succ n =>
      have hf' : sendOk i = false := by simpa using hf
      rw [sendLoop_succ_false n pkt hf']
      rfl
  | succ k ih =>
    intro n i pkt hn hf hpre
    cases n with
    | zero => omega
    | succ n =>
      have h0 : sendOk i = true := by simpa using hpre 0 (by omega)
      have hf' : sendOk (i + 1 + k) = false := by
        rwa [show i + 1 + k = i + (k + 1) by omega]
      have hpre' : ∀ j, j < k → sendOk (i + 1 + j) = true := by
        intro j hj
        have := hpre (j + 1) (by omega)
        rwa [show i + (j + 1) = i + 1 + j by omega] at this
      rw [sendLoop_succ_true n pkt h0, ih n (i + 1) pkt (by omega) hf' hpre']
      rfl

/-! ### Helper lemmas about the full-success trace -/

theorem pairTrace_filterMap (ps : Nat) :
    ∀ n s, (pairTrace ps n s).filterMap buildIdx = (List.range n).map (fun k => s + k) := by
  intro n
  induction n with
  | zero => intro s; rfl
  | succ n ih =>
    intro s
    rw [List.range_succ_eq_map]
    simp only [pairTrace, List.filterMap_cons, buildIdx, List.map_cons, List.map_map]
    rw [ih (s + 1)]
    refine congrArg (List.cons (s + 0)) ?_
    · refine List.map_congr_left ?_
      intro a _
      simp [Function.comp]
      omega

theorem pairTrace_getElem (ps : Nat) :
    ∀ n k s, k < n →
      (pairTrace ps n s)[2 * k]? = some (Event.build (s + k)) ∧
      (pairTrace ps n s)[2 * k + 1]? = some (Event.transmit (s + k) ps) := by
  intro n
  induction n with
  | zero => intro k s h; exact absurd h (Nat.not_lt_zero k)
  | succ n ih =>
    intro k s hk
    cases k with
    | zero => simp [pairTrace]
    | succ k =>
      have h1 : 2 * (k + 1) = 2 * k + 1 + 1 := by ring
      have h3 : s + (k + 1) = s + 1 + k := by omega
      rw [h1, h3]
      simp only [pairTrace, List.getElem?_cons_succ]
      exact ih k (s + 1) (by omega)

theorem pairTrace_mem_transmit (ps : Nat) :
    ∀ n s i, i < n → Event.transmit (s + i) ps ∈ pairTrace ps n s := by
  intro n
  induction n with
  | zero => intro s i h; exact absurd h (Nat.not_lt_zero i)
  | succ n ih =>
    intro s i hi
    cases i with
    | zero => simp [pairTrace]
    | succ i =>
      have h3 : s + (i + 1) = s + 1 + i := by omega
      rw [h3]
      simp only [pairTrace, List.mem_cons]
      exact Or.inr (Or.inr (ih (s + 1) i (by omega)))

theorem pairTrace_not_mem (ps : Nat) :
    ∀ n s j, s + n ≤ j →
      Event.build j ∉ pairTrace ps n s ∧
      ∀ l, Event.transmit j l ∉ pairTrace ps n s := by
  intro n
  induction n with
  | zero => intro s j _; simp [pairTrace]
  | succ n ih =>
    intro s j hj
    have hne : j ≠ s := by omega
    have htail := ih (s + 1) j (by omega)
    constructor
    · simp only [pairTrace, List.mem_cons]
      push_neg
      exact ⟨by simp [hne], by simp, htail.1⟩
    · intro l
      simp only [pairTrace, List.mem_cons]
      push_neg
      exact ⟨by simp, by simp [hne], htail.2 l⟩

/-! ### Helper lemmas about the decode loop -/

theorem decodeAux_succ_of_lt {hdr : Nat → Nat × Nat} {W buflen ptr : Nat}
    (fuel : Nat) (acc : List (Nat × Nat)) (h : ptr < buflen) :
    decodeAux hdr W buflen (fuel + 1) ptr acc =
      decodeAux hdr W buflen fuel
        (ptr + BPF_WORDALIGN W ((hdr ptr).1 + (hdr ptr).2))
        (acc ++ [(ptr + (hdr ptr).1, (hdr ptr).2)]) := by
  simp [decodeAux, h]

theorem decodeAux_done_of_ge {hdr : Nat → Nat × Nat} {W buflen ptr : Nat}
    (fuel : Nat) (acc : List (Nat × Nat)) (h : ¬ ptr < buflen) :
    decodeAux hdr W buflen fuel ptr acc = .done acc := by
  cases fuel <;> simp [decodeAux, h]

/-- Word-aligning an advance of zero bytes yields zero, for every word
size. -/
theorem BPF_WORDALIGN_zero (W : Nat) : BPF_WORDALIGN W 0 = 0 := by
  cases W with
  | zero => simp [BPF_WORDALIGN]
  | succ w => simp [BPF_WORDALIGN, Nat.div_eq_of_lt (show w < w + 1 by omega)]

/-! ### Claims about the receive side -/

/-- Claim C1, evidence of the code bug: when the blocking receive succeeds
(`PacketReceivePacket` nonzero) but the driver reports `ulBytesReceived = 0`,
the decode loop does queue zero records — but then control falls through to
`self.packets.pop_front().unwrap()` (winpcap.rs:267) with the queue still
empty, so `next()` panics instead of returning normally, staying Empty and
re-issuing a blocking receive on the following call as the claim states. -/
theorem C1_zero_bytes_received_aborts (hdr : Nat → Nat × Nat) (W : Nat) :
    next true hdr W 0 [] = (NextOutcome.panicked, []) := rfl

/-- Claim C7: a call to `next` made in the Empty state (no pending records)
whose blocking receive driver call returns a falsy result returns the
driver-call error immediately, and the record queue is left unmodified,
i.e. still empty. -/
theorem C7_recv_failure_returns_err (hdr : Nat → Nat × Nat) (W bytesReceived : Nat) :
    next false hdr W bytesReceived [] = (NextOutcome.err, []) := rfl

/-- Claim C3: for every receive buffer whose records at offsets 0 and 56
carry `headerLength = 16` and `capturedLength = 40`, with word size 8 and
`bytesReceived = 112`, the decode loop yields exactly the two records
`(16, 40)` then `(72, 40)`: each queued offset is the record start plus the
header length, and the cursor advances by `BPF_WORDALIGN 8 (16 + 40) = 56`
per record, so the second record is read at offset 56. -/
theorem C3_decode_two_records (hdr : Nat → Nat × Nat)
    (h0 : hdr 0 = (16, 40)) (h56 : hdr 56 = (16, 40)) :
    decodeRecords hdr 8 112 = DecodeRes.done [(16, 40), (72, 40)] := by
  have key : ∀ f, decodeAux hdr 8 112 (f + 1 + 1) 0 [] =
      DecodeRes.done [(16, 40), (72, 40)] := by
    intro f
    rw [decodeAux_succ_of_lt (f + 1) [] (by norm_num), h0]
    norm_num [BPF_WORDALIGN]
    rw [decodeAux_succ_of_lt f [(16, 40)] (by norm_num), h56]
    norm_num [BPF_WORDALIGN]
    exact decodeAux_done_of_ge f _ (by norm_num)
  exact key 110

/-- Witness for C3: the concrete buffer whose every offset reads header
`(16, 40)` satisfies the hypotheses and decodes to the two records. -/
theorem C3_decode_two_records_witness :
    (fun _ : Nat => ((16 : Nat), (40 : Nat))) 0 = (16, 40) ∧
    decodeRecords (fun _ : Nat => ((16 : Nat), (40 : Nat))) 8 112 =
      DecodeRes.done [(16, 40), (72, 40)] :=
  ⟨rfl, C3_decode_two_records (fun _ => (16, 40)) rfl rfl⟩

/-- Claim C10: at a loop state whose current record (within the received
range) has `headerLength = 0` and `capturedLength = 0`, the advance
`BPF_WORDALIGN (0 + 0)` is zero, so the cursor never moves and the loop
never terminates — for every fuel it is still running (`fuelOut`), having
queued one more copy of the record per iteration, without bound.  Hence the
decode loop terminates only if every decoded record advances the cursor. -/
theorem C10_zero_header_loops_forever (hdr : Nat → Nat × Nat)
    (W buflen ptr : Nat) (acc : List (Nat × Nat))
    (hlt : ptr < buflen) (hz : hdr ptr = (0, 0)) :
    ∀ fuel, decodeAux hdr W buflen fuel ptr acc =
      DecodeRes.fuelOut (acc ++ List.replicate fuel (ptr, 0)) := by
  intro fuel
  induction fuel generalizing acc with
  | zero => simp [decodeAux, hlt]
  | succ fuel ih =>
    rw [decodeAux_succ_of_lt fuel acc hlt, hz]
    norm_num [BPF_WORDALIGN_zero]
    rw [ih (acc ++ [(ptr, 0)])]
    simp [List.replicate_succ, List.append_assoc]

/-- Witness for C10: a buffer of 40 received bytes whose record at offset 0
has zero header length and zero captured length keeps the loop running for
(in particular) 5 fuel steps, having queued 5 records. -/
theorem C10_zero_header_loops_forever_witness :
    0 < 40 ∧ (fun _ : Nat => ((0 : Nat), (0 : Nat))) 0 = (0, 0) ∧
    decodeAux (fun _ : Nat => ((0 : Nat), (0 : Nat))) 8 40 5 0 [] =
      DecodeRes.fuelOut ([] ++ List.replicate 5 (0, 0)) :=
  ⟨by norm_num, rfl,
    C10_zero_header_loops_forever (fun _ => (0, 0)) 8 40 0 [] (by norm_num) rfl 5⟩

/-! ### Claims about the send side -/

/-- Claim C2: `build_and_send` returns `None` if and only if
`num_packets * packet_size` is greater than or equal to the descriptor's
capacity (its `Length` field); the comparison is `>=`, so a request whose
total size exactly equals the capacity is rejected with `None`. -/
theorem C2_reject_iff_capacity (sendOk : Nat → Bool) (pkt : Packet)
    (num_packets packet_size : Nat) :
    (build_and_send sendOk pkt num_packets packet_size).2.2 = SendOutcome.reject ↔
      pkt.Length ≤ num_packets * packet_size := by
  by_cases hc : pkt.Length ≤ num_packets * packet_size
  · simp [build_and_send, hc]
  · by_cases hp : packet_size = 0
    · subst hp
      simp [build_and_send, hc, show pkt.Length ≠ 0 by omega]
    · simp only [build_and_send, if_neg hc, if_neg hp]
      rcases sendLoop_outcome sendOk packet_size num_packets 0 pkt with h | h <;>
        simp [h, hc]

/-- Claim C9: with `packet_size = 0` and a positive descriptor capacity the
capacity precondition does not reject the request (the total size 0 is below
the capacity), and the subsequent `chunks_mut(0)` split panics: the call
neither returns `None` nor a typed error. -/
theorem C9_zero_packet_size_aborts (sendOk : Nat → Bool) (pkt : Packet)
    (num_packets : Nat) (h : 0 < pkt.Length) :
    (build_and_send sendOk pkt num_packets 0).2.2 = SendOutcome.panicked := by
  have h1 : ¬ pkt.Length ≤ num_packets * 0 := by omega
  simp [build_and_send, h1, show pkt.Length ≠ 0 by omega]

/-- Witness for C9 at capacity 1 and count 5. -/
theorem C9_zero_packet_size_aborts_witness :
    0 < (Packet.mk 1 0).Length ∧
    (build_and_send (fun _ => true) (Packet.mk 1 0) 5 0).2.2 = SendOutcome.panicked :=
  ⟨by decide, C9_zero_packet_size_aborts (fun _ => true) (Packet.mk 1 0) 5 (by decide)⟩

/-- Claim C4: when the capacity check passes (and `packet_size` is positive,
else no transmit call ever occurs) and the transmit for chunk `k` is the
first to return zero, the loop stops immediately at chunk `k`: the call
returns `Some(Err(..))`, the transmits of all earlier chunks and of chunk
`k` itself were issued and are not rolled back, and no chunk after `k` is
built or transmitted. -/
theorem C4_first_failure_stops (sendOk : Nat → Bool) (pkt : Packet)
    (num_packets packet_size k : Nat) (hps : 0 < packet_size)
    (hcap : num_packets * packet_size < pkt.Length) (hk : k < num_packets)
    (hfail : sendOk k = false) (hpre : ∀ j, j < k → sendOk j = true) :
    (build_and_send sendOk pkt num_packets packet_size).2.2 = SendOutcome.err ∧
    (build_and_send sendOk pkt num_packets packet_size).1 =
      pairTrace packet_size (k + 1) 0 ∧
    (∀ i, i ≤ k → Event.transmit i packet_size ∈
      (build_and_send sendOk pkt num_packets packet_size).1) ∧
    ∀ j, k < j →
      Event.build j ∉ (build_and_send sendOk pkt num_packets packet_size).1 ∧
      ∀ l, Event.transmit j l ∉ (build_and_send sendOk pkt num_packets packet_size).1 := by
  have h1 : ¬ pkt.Length ≤ num_packets * packet_size := by omega
  have h2 : ¬ packet_size = 0 := by omega
  have hbs : build_and_send sendOk pkt num_packets packet_size =
      (pairTrace packet_size (k + 1) 0, pkt, .err) := by
    simp only [build_and_send, if_neg h1, if_neg h2]
    exact sendLoop_trace_fail sendOk packet_size k num_packets 0 pkt hk
      (by simpa using hfail) (by simpa using hpre)
  rw [hbs]
  refine ⟨rfl, rfl, ?_, ?_⟩
  · intro i hi
    have := pairTrace_mem_transmit packet_size (k + 1) 0 i (by omega)
    simpa using this
  · intro j hj
    exact pairTrace_not_mem packet_size (k + 1) 0 j (by omega)

/-- Witness for C4: capacity 10, three chunks of one byte, transmit succeeds
for chunk 0 and fails first at chunk 1. -/
theorem C4_first_failure_stops_witness :
    (fun i : Nat => i == 0) 1 = false ∧
    (build_and_send (fun i : Nat => i == 0) (Packet.mk 10 0) 3 1).2.2 =
      SendOutcome.err :=
  ⟨rfl,
    (C4_first_failure_stops (fun i : Nat => i == 0) (Packet.mk 10 0) 3 1 1
      (by decide) (by decide) (by decide) rfl
      (fun j hj => by
        have hj0 : j = 0 := by omega
        subst hj0
        rfl)).1⟩

/-- Claim C5: on every call that returns (`Some(Ok)` or `Some(Err)`), the
descriptor's `Length` field equals the value it had at entry — it is set to
`packet_size` only for the duration of each chunk's transmit call (every
transmit event in the trace carries length `packet_size`) and restored
afterwards on the success and the failure path alike — and no descriptor
field other than `Length` (and the backing buffer's bytes, written through
the build callback) is modified. -/
theorem C5_length_restored (sendOk : Nat → Bool) (pkt : Packet)
    (num_packets packet_size : Nat)
    (h : (build_and_send sendOk pkt num_packets packet_size).2.2 = SendOutcome.ok ∨
      (build_and_send sendOk pkt num_packets packet_size).2.2 = SendOutcome.err) :
    (build_and_send sendOk pkt num_packets packet_size).2.1.Length = pkt.Length ∧
    (build_and_send sendOk pkt num_packets packet_size).2.1.rest = pkt.rest ∧
    ∀ j l, Event.transmit j l ∈ (build_and_send sendOk pkt num_packets packet_size).1 →
      l = packet_size := by
  by_cases hc : pkt.Length ≤ num_packets * packet_size
  · refine ⟨?_, ?_, ?_⟩ <;> simp [build_and_send, hc]
  · by_cases hp : packet_size = 0
    · subst hp
      refine ⟨?_, ?_, ?_⟩ <;>
        simp [build_and_send, hc, show pkt.Length ≠ 0 by omega]
    · simp only [build_and_send, if_neg hc, if_neg hp]
      refine ⟨?_, ?_, ?_⟩
      · rw [sendLoop_packet sendOk packet_size num_packets 0 pkt]
      · rw [sendLoop_packet sendOk packet_size num_packets 0 pkt]
      · intro j l hmem
        exact sendLoop_transmit_len sendOk packet_size num_packets 0 pkt j l hmem

/-- Witness for C5: two one-byte chunks over capacity 5, all transmits
succeeding. -/
theorem C5_length_restored_witness :
    ((build_and_send (fun _ => true) (Packet.mk 5 0) 2 1).2.2 = SendOutcome.ok ∨
      (build_and_send (fun _ => true) (Packet.mk 5 0) 2 1).2.2 = SendOutcome.err) ∧
    (build_and_send (fun _ => true) (Packet.mk 5 0) 2 1).2.1.Length =
      (Packet.mk 5 0).Length :=
  ⟨Or.inl (by decide),
    (C5_length_restored (fun _ => true) (Packet.mk 5 0) 2 1 (Or.inl (by decide))).1⟩

/-- Claim C6 counterexample: with capacity 3, count 2 and frame size 1 the
capacity check passes (2 * 1 < 3), yet when every transmit driver call
fails, the build callback is invoked only once — not count = 2 times — so
the claim as stated (exactly count invocations for every such call) is
false. -/
theorem C6_counterexample :
    2 * 1 < (Packet.mk 3 0).Length ∧
    ((build_and_send (fun _ => false) (Packet.mk 3 0) 2 1).1.filterMap buildIdx).length
      ≠ 2 := by
  decide

/-- Claim C6 as amended: provided the frame size is positive and every
transmit driver call of the batch succeeds, `build_and_send` invokes the
build callback exactly `num_packets` times, once per chunk in strictly
increasing chunk order (the sequence of build events is
`0, 1, ..., num_packets - 1`), and the build invocation for chunk `i`
occupies an earlier trace position than the transmit driver call of any
chunk `j > i`. -/
theorem C6_builds_in_order (sendOk : Nat → Bool) (pkt : Packet)
    (num_packets packet_size : Nat) (hps : 0 < packet_size)
    (hcap : num_packets * packet_size < pkt.Length)
    (hall : ∀ i, i < num_packets → sendOk i = true) :
    (build_and_send sendOk pkt num_packets packet_size).1.filterMap buildIdx =
      List.range num_packets ∧
    ∀ i j, i < j → j < num_packets →
      ∃ p q : Nat, p < q ∧
        (build_and_send sendOk pkt num_packets packet_size).1[p]? =
          some (Event.build i) ∧
        (build_and_send sendOk pkt num_packets packet_size).1[q]? =
          some (Event.transmit j packet_size) := by
  have h1 : ¬ pkt.Length ≤ num_packets * packet_size := by omega
  have h2 : ¬ packet_size = 0 := by omega
  have hbs : build_and_send sendOk pkt num_packets packet_size =
      (pairTrace packet_size num_packets 0, pkt, .ok) := by
    simp only [build_and_send, if_neg h1, if_neg h2]
    exact sendLoop_trace_ok sendOk packet_size num_packets 0 pkt (by simpa using hall)
  rw [hbs]
  constructor
  · show (pairTrace packet_size num_packets 0).filterMap buildIdx =
      List.range num_packets
    rw [pairTrace_filterMap]
    simp
  · intro i j hij hj
    refine ⟨2 * i, 2 * j + 1, by omega, ?_, ?_⟩
    · have := (pairTrace_getElem packet_size num_packets i 0 (by omega)).1
      simpa using this
    · have := (pairTrace_getElem packet_size num_packets j 0 hj).2
      simpa using this

/-- Witness for the amended C6: two one-byte chunks over capacity 5, all
transmits succeeding, build events exactly 0 then 1. -/
theorem C6_builds_in_order_witness :
    (0 : Nat) < 1 ∧ 2 * 1 < (Packet.mk 5 0).Length ∧
    (build_and_send (fun _ => true) (Packet.mk 5 0) 2 1).1.filterMap buildIdx =
      List.range 2 :=
  ⟨by decide, by decide,
    (C6_builds_in_order (fun _ => true) (Packet.mk 5 0) 2 1 (by decide) (by decide)
      (fun _ _ => rfl)).1⟩

/-! ### Claim about the channel factory -/

/-- Claim C8: whenever the adapter open succeeds but one of the subsequent
configuration driver calls fails (promiscuous filter, kernel buffer size or
immediate mode — e.g. `PacketSetBuff` failing after `PacketSetHwFilter`
succeeded), `datalink_channel` returns the error and the already-opened
adapter is closed exactly once: the trace contains exactly one
`PacketCloseAdapter`, matching its one successful `PacketOpenAdapter`. -/
theorem C8_config_failure_closes_once (d : Driver) (hopen : d.openOk = true)
    (hfail : ¬ (d.hwFilterOk = true ∧ d.setBuffOk = true ∧ d.minToCopyOk = true)) :
    (datalink_channel d).2 = ChanResult.err ∧
    countCalls DCall.closeAdapter (datalink_channel d).1 = 1 ∧
    countCalls DCall.openAdapter (datalink_channel d).1 = 1 := by
  obtain ⟨o, hf, sb, mc, ar, aw⟩ := d
  cases o
  · exact Bool.noConfusion hopen
  · cases hf
    · exact ⟨rfl, rfl, rfl⟩
    · cases sb
      · exact ⟨rfl, rfl, rfl⟩
      · cases mc
        · exact ⟨rfl, rfl, rfl⟩
        · exact absurd ⟨rfl, rfl, rfl⟩ hfail

/-- Witness for C8: open and filter succeed, the kernel-buffer-size call
fails. -/
theorem C8_config_failure_closes_once_witness :
    (Driver.mk true true false true true true).openOk = true ∧
    countCalls DCall.closeAdapter
      (datalink_channel (Driver.mk true true false true true true)).1 = 1 :=
  ⟨rfl,
    (C8_config_failure_closes_once (Driver.mk true true false true true true) rfl
      (by decide)).2.1⟩

end WinpcapSpec
